import Mathlib

/-!
Verification of the numeric engines of the `science` repository
(`boltzmann.py` and `animated_wave_addition.py`).

The Python code is shallowly embedded over the real numbers.  Floating
point arithmetic is modelled by exact real arithmetic; the Python
exceptions that the numeric primitives can raise (`ZeroDivisionError`
from `/`, `ValueError` from `math.pow` and `math.sqrt`) are modelled by
an `Except PyError` result.  The unbounded `while` loops of
`boltzmann_speed` and `boltzmann_energy` are modelled with a fuel
parameter; `Option.none` in the result means the loop ran longer than
the fuel, which (with the generous fuel used below) happens exactly in
the parameter regimes where the Python loop diverges.
-/

/-- Exceptions raised by the Python numeric primitives used in `boltzmann.py`:
`ZeroDivisionError` from float division by zero, `ValueError` from
`math.pow` and `math.sqrt` on domain errors (the `ValueError` raised by
`mass_and_title` for an unconvertible token is modelled by the same
constructor). -/
inductive PyError : Type
  | zeroDivisionError : PyError
  | valueError : PyError
deriving DecidableEq

/-- Python float division `a / b`: raises `ZeroDivisionError` when `b = 0`. -/
noncomputable def pydiv (a b : ℝ) : Except PyError ℝ :=
  if b = 0 then .error .zeroDivisionError else .ok (a / b)

open Classical in
/-- Python `math.pow x y`: raises `ValueError` when the base is negative and
the exponent is not an integer, or when the base is zero and the exponent is
negative; otherwise it returns the real power `x ^ y`. -/
noncomputable def pypow (x y : ℝ) : Except PyError ℝ :=
  if x < 0 ∧ ¬ ∃ n : ℤ, (n : ℝ) = y then .error .valueError
  else if x = 0 ∧ y < 0 then .error .valueError
  else .ok (Real.rpow x y)

/-- Python `math.sqrt x`: raises `ValueError` on a negative argument. -/
noncomputable def pysqrt (x : ℝ) : Except PyError ℝ :=
  if x < 0 then .error .valueError else .ok (Real.sqrt x)

/-- `PI = math.pi` (boltzmann.py line 7). -/
noncomputable def PI : ℝ := Real.pi

/-- Gas constant `R = 8.3144598` J/(K*mol) (boltzmann.py line 8). -/
noncomputable def R : ℝ := 8.3144598

/-- Boltzmann constant `K = 1.38064852e-23` J/K (boltzmann.py line 9). -/
noncomputable def K : ℝ := 1.38064852e-23

/-- Molecular mass of hydrogen `M_HYDROGEN = 1.00794 / 1000` Kg/mol. -/
noncomputable def M_HYDROGEN : ℝ := 1.00794 / 1000

/-- Molecular mass of oxygen `M_OXYGEN = 15.999 / 1000` Kg/mol. -/
noncomputable def M_OXYGEN : ℝ := 15.999 / 1000

/-- Molecular mass of air `M_AIR = 28.97 / 1000` Kg/mol. -/
noncomputable def M_AIR : ℝ := 28.97 / 1000

/-- Molecular mass of water `M_WATER = 18.01528 / 1000` Kg/mol. -/
noncomputable def M_WATER : ℝ := 18.01528 / 1000

/-- The `while` loop shared by `boltzmann_speed` and `boltzmann_energy`
(boltzmann.py lines 91-97 and 119-122): starting from `t`, while `t < maxv`
append `t` to the x list and the value of `body t` to the y list, then
advance `t` by `delta`.  `body` is the effectful computation of one y value
(it can raise, e.g. `math.sqrt` on a negative argument).  `fuel` bounds the
number of iterations of the model; `.ok none` means the bound was exceeded,
i.e. the Python loop runs longer than `fuel` iterations. -/
noncomputable def distLoop (maxv delta : ℝ) (body : ℝ → Except PyError ℝ) :
    ℕ → ℝ → Except PyError (Option (List ℝ × List ℝ))
  | 0, t => if t < maxv then .ok none else .ok (some ([], []))
  | fuel + 1, t =>
      if t < maxv then
        match body t with
        | .error e => .error e
        | .ok y =>
            match distLoop maxv delta body fuel (t + delta) with
            | .error e => .error e
            | .ok none => .ok none
            | .ok (some (xs, ys)) => .ok (some (t :: xs, y :: ys))
      else .ok (some ([], []))

/-- One y value of the speed loop (boltzmann.py lines 93-96):
`v2 = speed * speed; ex = - mass * v2 / (2 * R * temperature);
y.append(k * v2 * math.exp(ex) * 100)`. -/
noncomputable def speedBody (mass temperature k : ℝ) (speed : ℝ) :
    Except PyError ℝ :=
  match pydiv (-mass * (speed * speed)) (2 * R * temperature) with
  | .error e => .error e
  | .ok ex => .ok (k * (speed * speed) * Real.exp ex * 100)

/-- One y value of the energy loop (boltzmann.py line 121):
`y.append(k * math.sqrt(energy) * math.exp(-energy / (R * temperature)) *
delta_energy * 100)`. -/
noncomputable def energyBody (temperature k delta_energy : ℝ) (energy : ℝ) :
    Except PyError ℝ :=
  match pysqrt energy with
  | .error e => .error e
  | .ok s =>
      match pydiv (-energy) (R * temperature) with
      | .error e => .error e
      | .ok ex => .ok (k * s * Real.exp ex * delta_energy * 100)

/-- `boltzmann_speed(mass, temperature, max_speed, steps)` (boltzmann.py
lines 71-98): `k = 4 * PI * math.pow(mass / (2 * PI * R * temperature), 1.5)`,
`delta_speed = float(max_speed) / steps`, then the step loop from `speed = 0`.
The fuel `steps.toNat + 1` strictly exceeds the iteration count whenever the
Python loop terminates (the loop runs `steps` times when `delta_speed > 0`,
zero times when `max_speed <= 0`). -/
noncomputable def boltzmann_speed (mass temperature max_speed : ℝ)
    (steps : ℤ) : Except PyError (Option (List ℝ × List ℝ)) :=
  match pydiv mass (2 * PI * R * temperature) with
  | .error e => .error e
  | .ok base =>
      match pypow base 1.5 with
      | .error e => .error e
      | .ok p =>
          let k := 4 * PI * p
          match pydiv max_speed (steps : ℝ) with
          | .error e => .error e
          | .ok delta_speed =>
              distLoop max_speed delta_speed (speedBody mass temperature k)
                (steps.toNat + 1) 0

/-- `boltzmann_energy(temperature, max_energy, steps)` (boltzmann.py lines
101-123): `k = 2 * PI * math.pow(PI * R * temperature, -1.5)`,
`delta_energy = float(max_energy) / steps`, then the step loop from
`energy = 0`. -/
noncomputable def boltzmann_energy (temperature max_energy : ℝ)
    (steps : ℤ) : Except PyError (Option (List ℝ × List ℝ)) :=
  match pypow (PI * R * temperature) (-1.5) with
  | .error e => .error e
  | .ok p =>
      let k := 2 * PI * p
      match pydiv max_energy (steps : ℝ) with
      | .error e => .error e
      | .ok delta_energy =>
          distLoop max_energy delta_energy
            (energyBody temperature k delta_energy) (steps.toNat + 1) 0

/-- `velocity_report(mass, temperature)` (boltzmann.py lines 34-46) computes
`factor = R * temperature / mass` and prints the three characteristic speeds
`sqrt(2 * factor)`, `sqrt(8 * (factor / PI))`, `sqrt(3 * factor)`; the model
returns the printed triple (most probable, average, RMS). -/
noncomputable def velocity_report (mass temperature : ℝ) :
    Except PyError (ℝ × ℝ × ℝ) :=
  match pydiv (R * temperature) mass with
  | .error e => .error e
  | .ok factor =>
      match pysqrt (2 * factor) with
      | .error e => .error e
      | .ok most_probable =>
          match pydiv factor PI with
          | .error e => .error e
          | .ok fp =>
              match pysqrt (8 * fp) with
              | .error e => .error e
              | .ok average =>
                  match pysqrt (3 * factor) with
                  | .error e => .error e
                  | .ok rms => .ok (most_probable, average, rms)

/-- `c2k(t)` (boltzmann.py lines 49-57): Celsius to Kelvin. -/
noncomputable def c2k (t : ℝ) : ℝ := t + 273.15

/-- `k2c(t)` (boltzmann.py lines 60-68): Kelvin to Celsius. -/
noncomputable def k2c (t : ℝ) : ℝ := t - 273.15

/-- Numeric value of a list of decimal digit characters, most significant
first (helper for the model of Python `float`). -/
def digitsVal (l : List Char) : ℕ :=
  l.foldl (fun n c => 10 * n + (c.toNat - 48)) 0

/-- Strip an optional leading sign; returns `true` when the sign is `-`. -/
def stripSign : List Char → Bool × List Char
  | '-' :: rest => (true, rest)
  | '+' :: rest => (false, rest)
  | l => (false, l)

/-- Parse the mantissa of a decimal literal: digits with an optional single
decimal point, at least one digit in total. -/
def parseMantissa (l : List Char) : Option ℚ :=
  let ip := l.takeWhile Char.isDigit
  let r := l.dropWhile Char.isDigit
  match r with
  | [] => if ip.isEmpty then none else some (digitsVal ip)
  | c :: fp =>
      if c = '.' then
        if fp.all Char.isDigit && !(ip.isEmpty && fp.isEmpty) then
          some ((digitsVal ip : ℚ) + (digitsVal fp : ℚ) / 10 ^ fp.length)
        else none
      else none

/-- Model of Python `float(s)` on finite decimal literals: optional sign,
digits with an optional decimal point, optional `e`/`E` exponent.  The
special tokens `inf`/`nan`, embedded underscores and surrounding whitespace
accepted by CPython are not modelled; on every token exercised by this
development the two agree.  Returns the exact rational value, `none` when
the token is not a decimal literal (CPython raises `ValueError`). -/
def pyfloat (s : String) : Option ℚ :=
  let (neg, l1) := stripSign s.toList
  let mant := l1.takeWhile (fun c => c != 'e' && c != 'E')
  let rest := l1.dropWhile (fun c => c != 'e' && c != 'E')
  match parseMantissa mant with
  | none => none
  | some m =>
      let v : ℚ := if neg then -m else m
      match rest with
      | [] => some v
      | _ :: expRest =>
          let (eneg, e1) := stripSign expRest
          if e1.isEmpty || !(e1.all Char.isDigit) then none
          else
            let e := digitsVal e1
            some (if eneg then v / 10 ^ e else v * 10 ^ e)

/-- `mass_and_title(mass)` (boltzmann.py lines 202-225): look the token up in
the dictionary `{hyd, oxy, air, wat}`, the empty token defaulting to `wat`;
otherwise convert the token with `float`, raising
`ValueError('Cannot convert mass ... to float')` when that fails. -/
noncomputable def mass_and_title (mass : String) :
    Except PyError (ℝ × String) :=
  let m := if mass = "" then "wat" else mass
  if m = "hyd" then .ok (M_HYDROGEN, "Hidrogeno")
  else if m = "oxy" then .ok (M_OXYGEN, "Oxigeno")
  else if m = "air" then .ok (M_AIR, "Aire")
  else if m = "wat" then .ok (M_WATER, "Agua")
  else
    match pyfloat m with
    | some q => .ok ((q : ℝ), "")
    | none => .error .valueError

/-- `calculate_sum_wave(x, frequency_list)` (animated_wave_addition.py lines
29-44): `sum_wave = np.zeros(x.size)`, then for each frequency `f` add
`np.cos(np.pi * f * x)` elementwise. -/
noncomputable def calculate_sum_wave (x : List ℝ) (frequency_list : List ℝ) :
    List ℝ :=
  frequency_list.foldl
    (fun sum_wave f =>
      List.zipWith (· + ·) sum_wave (x.map fun t => Real.cos (PI * f * t)))
    (List.replicate x.length 0)

/-- If the loop variable already reached the maximum, the loop exits at once
with empty lists, whatever the fuel. -/
lemma distLoop_stop (maxv delta : ℝ) (body : ℝ → Except PyError ℝ)
    (fuel : ℕ) (t : ℝ) (h : ¬ t < maxv) :
    distLoop maxv delta body fuel t = .ok (some ([], [])) := by
  cases fuel <;> simp [distLoop, h]

/-- Exact unrolling of `distLoop`: if starting from `t` exactly `n` steps of
size `delta` stay below `maxv` and the `n`-th reaches it, and the body
computes `g` without raising on each visited point, then with fuel at least
`n` the loop returns the two lists of visited points and body values. -/
lemma distLoop_run (maxv delta : ℝ) (body : ℝ → Except PyError ℝ) (g : ℝ → ℝ)
    (n : ℕ) :
    ∀ (fuel : ℕ) (t : ℝ), n ≤ fuel →
      (∀ i : ℕ, i < n → t + i * delta < maxv) →
      maxv ≤ t + n * delta →
      (∀ i : ℕ, i < n → body (t + i * delta) = .ok (g (t + i * delta))) →
      distLoop maxv delta body fuel t =
        .ok (some ((List.range n).map (fun i : ℕ => t + i * delta),
                   (List.range n).map (fun i : ℕ => g (t + i * delta)))) := by
  induction n with
  | zero =>
      intro fuel t _ _ hge _
      have h : ¬ t < maxv := not_lt.2 (by simpa using hge)
      rw [distLoop_stop maxv delta body fuel t h]
      simp
  | succ k ih =>
      intro fuel t hfuel hlt hge hok
      obtain ⟨m, rfl⟩ : ∃ m, fuel = m + 1 := ⟨fuel - 1, by omega⟩
      have ht : t < maxv := by simpa using hlt 0 (Nat.succ_pos k)
      have hbody : body t = .ok (g t) := by simpa using hok 0 (Nat.succ_pos k)
      have hlt' : ∀ i : ℕ, i < k → (t + delta) + i * delta < maxv := by
        intro i hi
        have := hlt (i + 1) (by omega)
        push_cast at this ⊢
        linarith
      have hge' : maxv ≤ (t + delta) + k * delta := by
        push_cast at hge ⊢
        linarith
      have hok' : ∀ i : ℕ, i < k →
          body ((t + delta) + i * delta) = .ok (g ((t + delta) + i * delta)) := by
        intro i hi
        have harg : t + ((i + 1 : ℕ) : ℝ) * delta = (t + delta) + i * delta := by
          push_cast
          ring
        have := hok (i + 1) (by omega)
        rw [harg] at this
        exact this
      have ihm := ih m (t + delta) (by omega) hlt' hge' hok'
      have hxs : (List.range (k + 1)).map (fun i : ℕ => t + i * delta) =
          t :: (List.range k).map (fun i : ℕ => (t + delta) + i * delta) := by
        rw [List.range_succ_eq_map, List.map_cons, List.map_map]
        refine congrArg₂ (· :: ·) (by push_cast; ring) ?_
        refine List.map_congr_left ?_
        intro i _
        simp only [Function.comp]
        push_cast
        ring
      have hys : (List.range (k + 1)).map (fun i : ℕ => g (t + i * delta)) =
          g t :: (List.range k).map (fun i : ℕ => g ((t + delta) + i * delta)) := by
        rw [List.range_succ_eq_map, List.map_cons, List.map_map]
        refine congrArg₂ (· :: ·) (by norm_num) ?_
        refine List.map_congr_left ?_
        intro i _
        simp only [Function.comp]
        have harg : t + ((i + 1 : ℕ) : ℝ) * delta = (t + delta) + i * delta := by
          push_cast
          ring
        rw [harg]
      rw [hxs, hys]
      simp only [distLoop, if_pos ht, hbody, ihm]

/-- Positivity of the embedded gas constant. -/
lemma R_pos : (0:ℝ) < R := by norm_num [R]

/-- Closed form of `boltzmann_speed` in the regimes where it runs to
completion without raising (nonnegative `math.pow` base, nonzero
temperature, positive maximum and step count): it produces the `steps`
sample points `i * delta_speed` together with the density values of the
source formula. -/
lemma boltzmann_speed_run (mass temperature max_speed : ℝ) (steps : ℤ)
    (hbase : 0 ≤ mass / (2 * PI * R * temperature))
    (hTne : temperature ≠ 0) (hmax : 0 < max_speed)
    (hs : 0 < steps) :
    boltzmann_speed mass temperature max_speed steps =
      .ok (some
        ((List.range steps.toNat).map
          (fun i : ℕ => (i : ℝ) * (max_speed / steps)),
         (List.range steps.toNat).map
          (fun i : ℕ =>
            4 * PI * Real.rpow (mass / (2 * PI * R * temperature)) 1.5 *
              ((i : ℝ) * (max_speed / steps) * ((i : ℝ) * (max_speed / steps))) *
              Real.exp (-mass *
                  ((i : ℝ) * (max_speed / steps) * ((i : ℝ) * (max_speed / steps))) /
                (2 * R * temperature)) * 100))) := by
  have hPI : (0:ℝ) < PI := Real.pi_pos
  have hdne : (2 * PI * R * temperature) ≠ 0 :=
    mul_ne_zero (mul_ne_zero (mul_ne_zero two_ne_zero (ne_of_gt hPI))
      (ne_of_gt R_pos)) hTne
  have hd2ne : (2 * R * temperature) ≠ 0 :=
    mul_ne_zero (mul_ne_zero two_ne_zero (ne_of_gt R_pos)) hTne
  have hsR : (0:ℝ) < (steps : ℝ) := by exact_mod_cast hs
  have hdelta : (0:ℝ) < max_speed / steps := div_pos hmax hsR
  have h1 : pydiv mass (2 * PI * R * temperature) =
      .ok (mass / (2 * PI * R * temperature)) := by
    simp [pydiv, hdne]
  have h2 : pypow (mass / (2 * PI * R * temperature)) 1.5 =
      .ok (Real.rpow (mass / (2 * PI * R * temperature)) 1.5) := by
    have hA : ¬ (mass / (2 * PI * R * temperature) < 0 ∧
        ¬ ∃ n : ℤ, (n : ℝ) = (1.5 : ℝ)) := fun h => absurd h.1 (not_lt.2 hbase)
    have hB : ¬ (mass / (2 * PI * R * temperature) = 0 ∧ (1.5 : ℝ) < 0) :=
      fun h => by norm_num at h
    unfold pypow
    rw [if_neg hA, if_neg hB]
  have h3 : pydiv max_speed (steps : ℝ) = .ok (max_speed / steps) := by
    simp [pydiv, ne_of_gt hsR]
  have hbody : ∀ v : ℝ,
      speedBody mass temperature
        (4 * PI * Real.rpow (mass / (2 * PI * R * temperature)) 1.5) v =
      .ok (4 * PI * Real.rpow (mass / (2 * PI * R * temperature)) 1.5 *
        (v * v) * Real.exp (-mass * (v * v) / (2 * R * temperature)) * 100) := by
    intro v
    simp [speedBody, pydiv, hd2ne]
  have hlt : ∀ i : ℕ, i < steps.toNat →
      (0:ℝ) + i * (max_speed / steps) < max_speed := by
    intro i hi
    have hiR : (i : ℝ) < (steps : ℝ) := by
      have : (i : ℤ) < steps := by omega
      exact_mod_cast this
    rw [zero_add, ← mul_div_assoc, div_lt_iff₀ hsR]
    nlinarith
  have hge : max_speed ≤ (0:ℝ) + steps.toNat * (max_speed / steps) := by
    have htn : ((steps.toNat : ℕ) : ℝ) = (steps : ℝ) := by
      have := Int.toNat_of_nonneg hs.le
      exact_mod_cast congrArg (fun z : ℤ => (z : ℝ)) this
    rw [zero_add, htn]
    have : (steps : ℝ) * (max_speed / steps) = max_speed := by
      field_simp
    rw [this]
  have hok : ∀ i : ℕ, i < steps.toNat →
      speedBody mass temperature
        (4 * PI * Real.rpow (mass / (2 * PI * R * temperature)) 1.5)
        ((0:ℝ) + i * (max_speed / steps)) =
      .ok (4 * PI * Real.rpow (mass / (2 * PI * R * temperature)) 1.5 *
        (((0:ℝ) + i * (max_speed / steps)) * ((0:ℝ) + i * (max_speed / steps))) *
        Real.exp (-mass *
            (((0:ℝ) + i * (max_speed / steps)) * ((0:ℝ) + i * (max_speed / steps))) /
          (2 * R * temperature)) * 100) := by
    intro i _
    exact hbody _
  have hrun := distLoop_run max_speed (max_speed / steps)
    (speedBody mass temperature
      (4 * PI * Real.rpow (mass / (2 * PI * R * temperature)) 1.5))
    (fun v => 4 * PI * Real.rpow (mass / (2 * PI * R * temperature)) 1.5 *
      (v * v) * Real.exp (-mass * (v * v) / (2 * R * temperature)) * 100)
    steps.toNat (steps.toNat + 1) 0 (Nat.le_succ _) hlt hge hok
  simp only [boltzmann_speed, h1, h2, h3]
  rw [hrun]
  refine congrArg _ (congrArg _ (congrArg₂ Prod.mk ?_ ?_)) <;>
    exact List.map_congr_left fun i _ => by rw [zero_add]

/-- Closed form of `boltzmann_energy` in the well-behaved regime
`temperature > 0`, `max_energy > 0`, `steps > 0`: no exception is raised,
the loop terminates, and it produces the `steps` sample points
`i * delta_energy` together with the density values of the source formula. -/
lemma boltzmann_energy_run (temperature max_energy : ℝ) (steps : ℤ)
    (hT : 0 < temperature) (hmax : 0 < max_energy) (hs : 0 < steps) :
    boltzmann_energy temperature max_energy steps =
      .ok (some
        ((List.range steps.toNat).map
          (fun i : ℕ => (i : ℝ) * (max_energy / steps)),
         (List.range steps.toNat).map
          (fun i : ℕ =>
            2 * PI * Real.rpow (PI * R * temperature) (-1.5) *
              Real.sqrt ((i : ℝ) * (max_energy / steps)) *
              Real.exp (-((i : ℝ) * (max_energy / steps)) / (R * temperature)) *
              (max_energy / steps) * 100))) := by
  have hPI : (0:ℝ) < PI := Real.pi_pos
  have hbase : (0:ℝ) < PI * R * temperature :=
    mul_pos (mul_pos hPI R_pos) hT
  have hd2 : (0:ℝ) < R * temperature := mul_pos R_pos hT
  have hsR : (0:ℝ) < (steps : ℝ) := by exact_mod_cast hs
  have hdelta : (0:ℝ) < max_energy / steps := div_pos hmax hsR
  have h1 : pypow (PI * R * temperature) (-1.5) =
      .ok (Real.rpow (PI * R * temperature) (-1.5)) := by
    have hA : ¬ (PI * R * temperature < 0 ∧
        ¬ ∃ n : ℤ, (n : ℝ) = (-1.5 : ℝ)) := fun h => absurd h.1 (not_lt.2 hbase.le)
    have hB : ¬ (PI * R * temperature = 0 ∧ (-1.5 : ℝ) < 0) :=
      fun h => absurd h.1 (ne_of_gt hbase)
    unfold pypow
    rw [if_neg hA, if_neg hB]
  have h2 : pydiv max_energy (steps : ℝ) = .ok (max_energy / steps) := by
    simp [pydiv, ne_of_gt hsR]
  have hbody : ∀ v : ℝ, 0 ≤ v →
      energyBody temperature (2 * PI * Real.rpow (PI * R * temperature) (-1.5))
        (max_energy / steps) v =
      .ok (2 * PI * Real.rpow (PI * R * temperature) (-1.5) *
        Real.sqrt v * Real.exp (-v / (R * temperature)) *
        (max_energy / steps) * 100) := by
    intro v hv
    simp [energyBody, pysqrt, pydiv, not_lt.2 hv, ne_of_gt hd2]
  have hlt : ∀ i : ℕ, i < steps.toNat →
      (0:ℝ) + i * (max_energy / steps) < max_energy := by
    intro i hi
    have hiR : (i : ℝ) < (steps : ℝ) := by
      have : (i : ℤ) < steps := by omega
      exact_mod_cast this
    rw [zero_add, ← mul_div_assoc, div_lt_iff₀ hsR]
    nlinarith
  have hge : max_energy ≤ (0:ℝ) + steps.toNat * (max_energy / steps) := by
    have htn : ((steps.toNat : ℕ) : ℝ) = (steps : ℝ) := by
      have := Int.toNat_of_nonneg hs.le
      exact_mod_cast congrArg (fun z : ℤ => (z : ℝ)) this
    rw [zero_add, htn]
    have : (steps : ℝ) * (max_energy / steps) = max_energy := by
      field_simp
    rw [this]
  have hok : ∀ i : ℕ, i < steps.toNat →
      energyBody temperature (2 * PI * Real.rpow (PI * R * temperature) (-1.5))
        (max_energy / steps) ((0:ℝ) + i * (max_energy / steps)) =
      .ok (2 * PI * Real.rpow (PI * R * temperature) (-1.5) *
        Real.sqrt ((0:ℝ) + i * (max_energy / steps)) *
        Real.exp (-((0:ℝ) + i * (max_energy / steps)) / (R * temperature)) *
        (max_energy / steps) * 100) := by
    intro i _
    exact hbody _ (by positivity)
  have hrun := distLoop_run max_energy (max_energy / steps)
    (energyBody temperature (2 * PI * Real.rpow (PI * R * temperature) (-1.5))
      (max_energy / steps))
    (fun v => 2 * PI * Real.rpow (PI * R * temperature) (-1.5) *
      Real.sqrt v * Real.exp (-v / (R * temperature)) *
      (max_energy / steps) * 100)
    steps.toNat (steps.toNat + 1) 0 (Nat.le_succ _) hlt hge hok
  simp only [boltzmann_energy, h1, h2]
  rw [hrun]
  refine congrArg _ (congrArg _ (congrArg₂ Prod.mk ?_ ?_)) <;>
    exact List.map_congr_left fun i _ => by rw [zero_add]

/-- C4: for every mass > 0, temperature > 0, max_speed > 0 and steps > 0, the
speed distribution succeeds and each density value at axis value `speed`
equals `k * speed^2 * exp(-mass * speed^2 / (2*R*T)) * 100` with
`k = 4*PI*(mass / (2*PI*R*T))^1.5` and `R = 8.3144598`; no step-size factor
appears in the density formula. -/
theorem boltzmann_speed_density_formula (mass temperature max_speed : ℝ)
    (steps : ℤ) (hm : 0 < mass) (hT : 0 < temperature) (hmax : 0 < max_speed)
    (hs : 0 < steps) :
    R = 8.3144598 ∧
    ∃ x y : List ℝ,
      boltzmann_speed mass temperature max_speed steps = .ok (some (x, y)) ∧
      y = x.map (fun speed =>
        4 * PI * Real.rpow (mass / (2 * PI * R * temperature)) 1.5 *
          speed ^ 2 *
          Real.exp (-(mass * speed ^ 2) / (2 * R * temperature)) * 100) := by
  refine ⟨rfl, _, _,
    boltzmann_speed_run mass temperature max_speed steps
      (div_nonneg hm.le
        (mul_pos (mul_pos (mul_pos two_pos Real.pi_pos) R_pos) hT).le)
      (ne_of_gt hT) hmax hs, ?_⟩
  rw [List.map_map]
  refine List.map_congr_left ?_
  intro i _
  simp only [Function.comp_apply]
  have h1 : -mass *
        ((i:ℝ) * (max_speed / steps) * ((i:ℝ) * (max_speed / steps))) /
        (2 * R * temperature) =
      -(mass * ((i:ℝ) * (max_speed / steps)) ^ 2) / (2 * R * temperature) := by
    ring
  rw [h1]
  ring

/-- C3: for every temperature > 0, max_energy > 0 and steps > 0, the energy
distribution succeeds and each density value at axis value `energy` equals
`k * sqrt(energy) * exp(-energy / (R*T)) * delta_energy * 100` with
`k = 2*PI*(PI*R*T)^(-1.5)`, `delta_energy = max_energy / steps` and
`R = 8.3144598`; in particular the step-size factor `delta_energy` appears in
the density formula, unlike the speed variant. -/
theorem boltzmann_energy_density_formula (temperature max_energy : ℝ)
    (steps : ℤ) (hT : 0 < temperature) (hmax : 0 < max_energy)
    (hs : 0 < steps) :
    R = 8.3144598 ∧
    ∃ x y : List ℝ,
      boltzmann_energy temperature max_energy steps = .ok (some (x, y)) ∧
      y = x.map (fun energy =>
        2 * PI * Real.rpow (PI * R * temperature) (-1.5) *
          Real.sqrt energy * Real.exp (-energy / (R * temperature)) *
          (max_energy / steps) * 100) := by
  refine ⟨rfl, _, _,
    boltzmann_energy_run temperature max_energy steps hT hmax hs, ?_⟩
  rw [List.map_map]
  refine List.map_congr_left ?_
  intro i _
  simp only [Function.comp_apply]

/-- C5: with nonnegative mass, positive temperature, positive maximum and
positive step count the speed loop starts at 0, advances by
`max_speed / steps`, stops once the speed reaches `max_speed`, and returns
exactly `ceil(max_speed / delta)` points (all below `max_speed`, the first
being 0) with nonnegative density values. -/
theorem boltzmann_speed_points (mass temperature max_speed : ℝ) (steps : ℤ)
    (hm : 0 ≤ mass) (hT : 0 < temperature) (hmax : 0 < max_speed)
    (hs : 0 < steps) :
    ∃ x y : List ℝ,
      boltzmann_speed mass temperature max_speed steps = .ok (some (x, y)) ∧
      x.length = ⌈max_speed / (max_speed / (steps : ℝ))⌉₊ ∧
      y.length = x.length ∧
      x.head? = some 0 ∧
      (∀ v ∈ y, 0 ≤ v) ∧
      x = (List.range steps.toNat).map
        (fun i : ℕ => (i : ℝ) * (max_speed / steps)) ∧
      (∀ v ∈ x, v < max_speed) := by
  have hPI : (0:ℝ) < PI := Real.pi_pos
  have hd : (0:ℝ) < 2 * PI * R * temperature :=
    mul_pos (mul_pos (mul_pos two_pos hPI) R_pos) hT
  have hsR : (0:ℝ) < (steps : ℝ) := by exact_mod_cast hs
  have hcast : ((steps.toNat : ℕ) : ℝ) = (steps : ℝ) := by
    have := Int.toNat_of_nonneg hs.le
    exact_mod_cast congrArg (fun z : ℤ => (z : ℝ)) this
  refine ⟨_, _,
    boltzmann_speed_run mass temperature max_speed steps
      (div_nonneg hm hd.le) (ne_of_gt hT) hmax hs,
    ?_, ?_, ?_, ?_, rfl, ?_⟩
  · rw [List.length_map, List.length_range]
    have h1 : max_speed / (max_speed / (steps : ℝ)) = (steps : ℝ) := by
      field_simp
    rw [h1, Nat.ceil_intCast]
  · rw [List.length_map, List.length_map]
  · have h1 : steps.toNat = (steps.toNat - 1) + 1 := by omega
    rw [h1, List.range_succ_eq_map, List.map_cons, List.head?_cons]
    norm_num
  · intro v hv
    rcases List.mem_map.1 hv with ⟨i, _, rfl⟩
    have hK : 0 ≤ Real.rpow (mass / (2 * PI * R * temperature)) 1.5 :=
      Real.rpow_nonneg (div_nonneg hm hd.le) _
    refine mul_nonneg (mul_nonneg (mul_nonneg ?_ (mul_self_nonneg _))
      (Real.exp_pos _).le) (by norm_num)
    exact mul_nonneg (mul_nonneg (by norm_num) hPI.le) hK
  · intro v hv
    rcases List.mem_map.1 hv with ⟨i, hi, rfl⟩
    have hiR : (i : ℝ) < (steps : ℝ) := by
      have h2 : (i : ℤ) < steps := by
        have := List.mem_range.1 hi
        omega
      exact_mod_cast h2
    rw [← mul_div_assoc, div_lt_iff₀ hsR]
    nlinarith

/-- C8: for every temperature > 0, max_energy > 0 and steps > 0, the energy
distribution succeeds, every density value is nonnegative, and the x-axis
values are strictly increasing. -/
theorem boltzmann_energy_invariants (temperature max_energy : ℝ) (steps : ℤ)
    (hT : 0 < temperature) (hmax : 0 < max_energy) (hs : 0 < steps) :
    ∃ x y : List ℝ,
      boltzmann_energy temperature max_energy steps = .ok (some (x, y)) ∧
      (∀ v ∈ y, 0 ≤ v) ∧
      x.Pairwise (· < ·) := by
  have hPI : (0:ℝ) < PI := Real.pi_pos
  have hbase : (0:ℝ) < PI * R * temperature := mul_pos (mul_pos hPI R_pos) hT
  have hsR : (0:ℝ) < (steps : ℝ) := by exact_mod_cast hs
  have hdelta : (0:ℝ) < max_energy / steps := div_pos hmax hsR
  refine ⟨_, _, boltzmann_energy_run temperature max_energy steps hT hmax hs,
    ?_, ?_⟩
  · intro v hv
    rcases List.mem_map.1 hv with ⟨i, _, rfl⟩
    have hK : 0 ≤ Real.rpow (PI * R * temperature) (-1.5) :=
      Real.rpow_nonneg hbase.le _
    refine mul_nonneg (mul_nonneg (mul_nonneg (mul_nonneg ?_
      (Real.sqrt_nonneg _)) (Real.exp_pos _).le) hdelta.le) (by norm_num)
    exact mul_nonneg (mul_nonneg (by norm_num) hPI.le) hK
  · rw [List.pairwise_map]
    refine (List.pairwise_lt_range steps.toNat).imp ?_
    intro a b hab
    have habR : (a : ℝ) < (b : ℝ) := by exact_mod_cast hab
    exact mul_lt_mul_of_pos_right habR hdelta

/-- C7: for every mass > 0 and temperature > 0 the characteristic speeds
printed by `velocity_report` are the closed forms `sqrt(2*R*T/mass)`,
`sqrt(8*R*T/(PI*mass))` and `sqrt(3*R*T/mass)`, and they satisfy the strict
ordering most probable < mean < RMS. -/
theorem velocity_report_ordering (mass temperature : ℝ) (hm : 0 < mass)
    (hT : 0 < temperature) :
    ∃ mp av rms : ℝ,
      velocity_report mass temperature = .ok (mp, av, rms) ∧
      mp = Real.sqrt (2 * R * temperature / mass) ∧
      av = Real.sqrt (8 * R * temperature / (PI * mass)) ∧
      rms = Real.sqrt (3 * R * temperature / mass) ∧
      mp < av ∧ av < rms := by
  have hPI : (0:ℝ) < PI := Real.pi_pos
  have hPI4 : PI < 3.15 := Real.pi_lt_d2
  have hPI3 : (3:ℝ) < PI := Real.pi_gt_three
  have hf : (0:ℝ) < R * temperature / mass := div_pos (mul_pos R_pos hT) hm
  have h1 : pydiv (R * temperature) mass = .ok (R * temperature / mass) := by
    simp [pydiv, ne_of_gt hm]
  have h2 : pysqrt (2 * (R * temperature / mass)) =
      .ok (Real.sqrt (2 * (R * temperature / mass))) := by
    simp [pysqrt, not_lt.2 (by linarith : (0:ℝ) ≤ 2 * (R * temperature / mass))]
  have h3 : pydiv (R * temperature / mass) PI =
      .ok (R * temperature / mass / PI) := by
    simp [pydiv, ne_of_gt hPI]
  have h4 : pysqrt (8 * (R * temperature / mass / PI)) =
      .ok (Real.sqrt (8 * (R * temperature / mass / PI))) := by
    have : (0:ℝ) ≤ 8 * (R * temperature / mass / PI) := by positivity
    simp [pysqrt, not_lt.2 this]
  have h5 : pysqrt (3 * (R * temperature / mass)) =
      .ok (Real.sqrt (3 * (R * temperature / mass))) := by
    simp [pysqrt, not_lt.2 (by linarith : (0:ℝ) ≤ 3 * (R * temperature / mass))]
  refine ⟨Real.sqrt (2 * (R * temperature / mass)),
    Real.sqrt (8 * (R * temperature / mass / PI)),
    Real.sqrt (3 * (R * temperature / mass)), ?_, ?_, ?_, ?_, ?_, ?_⟩
  · simp only [velocity_report, h1, h2, h3, h4, h5]
  · exact congrArg Real.sqrt (by ring)
  · exact congrArg Real.sqrt (by ring)
  · exact congrArg Real.sqrt (by ring)
  · refine Real.sqrt_lt_sqrt (by linarith) ?_
    have h8 : 8 * (R * temperature / mass / PI) =
        8 * (R * temperature / mass) / PI := by ring
    rw [h8, lt_div_iff₀ hPI]
    nlinarith
  · refine Real.sqrt_lt_sqrt (by positivity) ?_
    have h8 : 8 * (R * temperature / mass / PI) =
        8 * (R * temperature / mass) / PI := by ring
    rw [h8, div_lt_iff₀ hPI]
    nlinarith

/-- Length of the wave-summation accumulator loop: folding any frequency list
over an accumulator of the sample count's length preserves that length. -/
lemma sum_wave_foldl_length (x : List ℝ) (fs : List ℝ) :
    ∀ acc : List ℝ, acc.length = x.length →
      (fs.foldl
        (fun sum_wave f =>
          List.zipWith (· + ·) sum_wave (x.map fun t => Real.cos (PI * f * t)))
        acc).length = x.length := by
  induction fs with
  | nil =>
      intro acc h
      simpa using h
  | cons f fs ih =>
      intro acc h
      rw [List.foldl_cons]
      exact ih _ (by simp [List.length_zipWith, h])

/-- C6: the result of `calculate_sum_wave` always has as many entries as the
sample grid `x`, and on an empty frequency list it is the all-zero sequence
of that length. -/
theorem calculate_sum_wave_length_and_empty (x frequency_list : List ℝ) :
    (calculate_sum_wave x frequency_list).length = x.length ∧
    calculate_sum_wave x ([] : List ℝ) = List.replicate x.length 0 := by
  constructor
  · exact sum_wave_foldl_length x frequency_list _ (by simp)
  · rfl

/-- C2: the token `air` resolves to the air entry with mass `28.97 / 1000`,
a plain numeric token such as `5.0` resolves to its float value with an
empty title, and an unrecognized non-numeric token such as `bogus` raises
the mass conversion error (a Python `ValueError`, the spec's
InvalidMassError). -/
theorem mass_and_title_tokens :
    mass_and_title "air" = .ok (M_AIR, "Aire") ∧
    M_AIR = 28.97 / 1000 ∧
    mass_and_title "5.0" = .ok ((5 : ℝ), "") ∧
    mass_and_title "bogus" = .error .valueError := by
  refine ⟨?_, rfl, ?_, ?_⟩
  · simp [mass_and_title]
  · simp [mass_and_title, pyfloat, parseMantissa, stripSign, digitsVal]
  · simp [mass_and_title, pyfloat, parseMantissa, stripSign, digitsVal]

/-- C9: the empty-string token does not raise: it is replaced by `wat` and
returns the water entry `(18.01528 / 1000, "Agua")`, exactly as if `wat` had
been supplied. -/
theorem mass_and_title_empty_token :
    mass_and_title "" = .ok (M_WATER, "Agua") ∧
    mass_and_title "" = mass_and_title "wat" ∧
    M_WATER = 18.01528 / 1000 := by
  refine ⟨?_, ?_, rfl⟩ <;> simp [mass_and_title]

/-- C1 evidence: the code performs no precondition check on non-positive
inputs.  At mass = -1 and temperature = -1 (both non-positive) the speed
distribution proceeds with the numeric formulas and returns a full
300-point curve, and `velocity_report` likewise returns a triple of speeds;
no error of any kind is signaled. -/
theorem boltzmann_no_precondition_check :
    (-1 : ℝ) ≤ 0 ∧
    (∃ x y : List ℝ,
      boltzmann_speed (-1) (-1) 3000 300 = .ok (some (x, y)) ∧
      x.length = 300) ∧
    ∃ c : ℝ × ℝ × ℝ, velocity_report (-1) (-1) = .ok c := by
  have hPI : (0:ℝ) < PI := Real.pi_pos
  have hbase : (0:ℝ) ≤ (-1 : ℝ) / (2 * PI * R * (-1)) := by
    have hnum : (-1:ℝ) < 0 := by norm_num
    have hden : 2 * PI * R * (-1:ℝ) < 0 := by nlinarith [R_pos]
    exact (div_pos_of_neg_of_neg hnum hden).le
  have hrun := boltzmann_speed_run (-1) (-1) 3000 300 hbase (by norm_num)
    (by norm_num) (by norm_num)
  refine ⟨by norm_num, ⟨_, _, hrun, ?_⟩, ?_⟩
  · simp
  · have hfac : R * (-1:ℝ) / (-1) = R := by ring
    have h1 : pydiv (R * (-1)) (-1:ℝ) = .ok (R * (-1) / (-1)) := by
      simp [pydiv]
    have h2 : pysqrt (2 * (R * (-1:ℝ) / (-1))) =
        .ok (Real.sqrt (2 * (R * (-1:ℝ) / (-1)))) := by
      have : (0:ℝ) ≤ 2 * (R * (-1:ℝ) / (-1)) := by
        rw [hfac]
        linarith [R_pos]
      simp [pysqrt, not_lt.2 this, R_pos.le]
    have h3 : pydiv (R * (-1:ℝ) / (-1)) PI =
        .ok (R * (-1:ℝ) / (-1) / PI) := by
      simp [pydiv, ne_of_gt hPI]
    have h4 : pysqrt (8 * (R * (-1:ℝ) / (-1) / PI)) =
        .ok (Real.sqrt (8 * (R * (-1:ℝ) / (-1) / PI))) := by
      have : (0:ℝ) ≤ 8 * (R * (-1:ℝ) / (-1) / PI) := by
        have h := div_nonneg R_pos.le hPI.le
        have heq : R * (-1:ℝ) / (-1) / PI = R / PI := by rw [hfac]
        rw [heq]
        linarith
      simp [pysqrt, not_lt.2 this, div_nonneg R_pos.le hPI.le]
    have h5 : pysqrt (3 * (R * (-1:ℝ) / (-1))) =
        .ok (Real.sqrt (3 * (R * (-1:ℝ) / (-1)))) := by
      have : (0:ℝ) ≤ 3 * (R * (-1:ℝ) / (-1)) := by
        rw [hfac]
        linarith [R_pos]
      simp [pysqrt, not_lt.2 this, R_pos.le]
    refine ⟨(Real.sqrt (2 * (R * (-1:ℝ) / (-1))),
      Real.sqrt (8 * (R * (-1:ℝ) / (-1) / PI)),
      Real.sqrt (3 * (R * (-1:ℝ) / (-1)))), ?_⟩
    simp only [velocity_report, h1, h2, h3, h4, h5]

/-- C10 counterexample: at steps = 0 the delta computation divides by zero,
so even with a non-positive maximum the speed distribution raises
`ZeroDivisionError` instead of returning an empty curve. -/
theorem boltzmann_speed_zero_steps_error :
    (-1 : ℝ) ≤ 0 ∧
    boltzmann_speed 1 300 (-1) 0 = .error .zeroDivisionError := by
  have hPI : (0:ℝ) < PI := Real.pi_pos
  have hd : (0:ℝ) < 2 * PI * R * 300 := by nlinarith [R_pos]
  have h1 : pydiv 1 (2 * PI * R * (300:ℝ)) =
      .ok (1 / (2 * PI * R * 300)) := by
    simp [pydiv, ne_of_gt hd]
  have hbase : (0:ℝ) ≤ 1 / (2 * PI * R * 300) := by positivity
  have h2 : pypow (1 / (2 * PI * R * (300:ℝ))) 1.5 =
      .ok (Real.rpow (1 / (2 * PI * R * (300:ℝ))) 1.5) := by
    have hA : ¬ (1 / (2 * PI * R * (300:ℝ)) < 0 ∧
        ¬ ∃ n : ℤ, (n : ℝ) = (1.5 : ℝ)) := fun h => absurd h.1 (not_lt.2 hbase)
    have hB : ¬ (1 / (2 * PI * R * (300:ℝ)) = 0 ∧ (1.5 : ℝ) < 0) :=
      fun h => by norm_num at h
    unfold pypow
    rw [if_neg hA, if_neg hB]
  have h3 : pydiv (-1) (((0:ℤ)) : ℝ) = .error .zeroDivisionError := by
    simp [pydiv]
  refine ⟨by norm_num, ?_⟩
  simp only [boltzmann_speed, h1, h2, h3]

/-- C10 amended: for every mass >= 0, temperature > 0 and nonzero step
count, a non-positive maximum makes the speed (resp. energy) distribution
return an empty curve without raising: the loop guard fails on the first
iteration. -/
theorem boltzmann_empty_curve_nonpositive_max
    (mass temperature max_speed max_energy : ℝ) (steps : ℤ)
    (hm : 0 ≤ mass) (hT : 0 < temperature) (hs : steps ≠ 0)
    (hms : max_speed ≤ 0) (hme : max_energy ≤ 0) :
    boltzmann_speed mass temperature max_speed steps = .ok (some ([], [])) ∧
    boltzmann_energy temperature max_energy steps = .ok (some ([], [])) := by
  have hPI : (0:ℝ) < PI := Real.pi_pos
  have hd : (0:ℝ) < 2 * PI * R * temperature :=
    mul_pos (mul_pos (mul_pos two_pos hPI) R_pos) hT
  have hbase : 0 ≤ mass / (2 * PI * R * temperature) := div_nonneg hm hd.le
  have hsR : ((steps : ℝ)) ≠ 0 := Int.cast_ne_zero.2 hs
  constructor
  · have h1 : pydiv mass (2 * PI * R * temperature) =
        .ok (mass / (2 * PI * R * temperature)) := by
      simp [pydiv, ne_of_gt hd]
    have h2 : pypow (mass / (2 * PI * R * temperature)) 1.5 =
        .ok (Real.rpow (mass / (2 * PI * R * temperature)) 1.5) := by
      have hA : ¬ (mass / (2 * PI * R * temperature) < 0 ∧
          ¬ ∃ n : ℤ, (n : ℝ) = (1.5 : ℝ)) := fun h => absurd h.1 (not_lt.2 hbase)
      have hB : ¬ (mass / (2 * PI * R * temperature) = 0 ∧ (1.5 : ℝ) < 0) :=
        fun h => by norm_num at h
      unfold pypow
      rw [if_neg hA, if_neg hB]
    have h3 : pydiv max_speed (steps : ℝ) = .ok (max_speed / steps) := by
      simp [pydiv, hsR]
    simp only [boltzmann_speed, h1, h2, h3]
    exact distLoop_stop _ _ _ _ 0 (not_lt.2 hms)
  · have hb : (0:ℝ) < PI * R * temperature :=
      mul_pos (mul_pos hPI R_pos) hT
    have h1 : pypow (PI * R * temperature) (-1.5) =
        .ok (Real.rpow (PI * R * temperature) (-1.5)) := by
      have hA : ¬ (PI * R * temperature < 0 ∧
          ¬ ∃ n : ℤ, (n : ℝ) = (-1.5 : ℝ)) :=
        fun h => absurd h.1 (not_lt.2 hb.le)
      have hB : ¬ (PI * R * temperature = 0 ∧ (-1.5 : ℝ) < 0) :=
        fun h => absurd h.1 (ne_of_gt hb)
      unfold pypow
      rw [if_neg hA, if_neg hB]
    have h2 : pydiv max_energy (steps : ℝ) = .ok (max_energy / steps) := by
      simp [pydiv, hsR]
    simp only [boltzmann_energy, h1, h2]
    exact distLoop_stop _ _ _ _ 0 (not_lt.2 hme)

/-- Concrete instance of the amended C10 statement: speed maximum -1 and
energy maximum -2 with 5 steps both yield the empty curve. -/
theorem boltzmann_empty_curve_nonpositive_max_witness :
    boltzmann_speed 1 300 (-1) 5 = .ok (some ([], [])) ∧
    boltzmann_energy 300 (-2) 5 = .ok (some ([], [])) :=
  boltzmann_empty_curve_nonpositive_max 1 300 (-1) (-2) 5 (by norm_num)
    (by norm_num) (by norm_num) (by norm_num) (by norm_num)

/-- Concrete instance of the C4 statement at mass 1, temperature 300 K,
maximum speed 3000 and 300 steps. -/
theorem boltzmann_speed_density_formula_witness :
    R = 8.3144598 ∧
    ∃ x y : List ℝ,
      boltzmann_speed 1 300 3000 300 = .ok (some (x, y)) ∧
      y = x.map (fun speed =>
        4 * PI * Real.rpow (1 / (2 * PI * R * 300)) 1.5 * speed ^ 2 *
          Real.exp (-(1 * speed ^ 2) / (2 * R * 300)) * 100) :=
  boltzmann_speed_density_formula 1 300 3000 300 (by norm_num) (by norm_num)
    (by norm_num) (by norm_num)

/-- Concrete instance of the C3 statement at temperature 300 K, maximum
energy 25000 J and 300 steps. -/
theorem boltzmann_energy_density_formula_witness :
    R = 8.3144598 ∧
    ∃ x y : List ℝ,
      boltzmann_energy 300 25000 300 = .ok (some (x, y)) ∧
      y = x.map (fun energy =>
        2 * PI * Real.rpow (PI * R * 300) (-1.5) *
          Real.sqrt energy * Real.exp (-energy / (R * 300)) *
          (25000 / ((300 : ℤ) : ℝ)) * 100) :=
  boltzmann_energy_density_formula 300 25000 300 (by norm_num) (by norm_num)
    (by norm_num)

/-- Concrete instance of the C5 statement, at the spec's example parameters:
mass of water, 300 K, maximum speed 3000 m/s, 300 steps give exactly 300
points, the first at speed 0, with nonnegative density values. -/
theorem boltzmann_speed_points_witness :
    ∃ x y : List ℝ,
      boltzmann_speed M_WATER 300 3000 300 = .ok (some (x, y)) ∧
      x.length = 300 ∧
      x.head? = some 0 ∧
      ∀ v ∈ y, 0 ≤ v := by
  obtain ⟨x, y, h, hlen, _, hhead, hy, _, _⟩ :=
    boltzmann_speed_points M_WATER 300 3000 300 (by norm_num [M_WATER])
      (by norm_num) (by norm_num) (by norm_num)
  refine ⟨x, y, h, ?_, hhead, hy⟩
  rw [hlen]
  norm_num

/-- Concrete instance of the C7 statement at the mass of water and 300 K. -/
theorem velocity_report_ordering_witness :
    ∃ mp av rms : ℝ,
      velocity_report M_WATER 300 = .ok (mp, av, rms) ∧
      mp = Real.sqrt (2 * R * 300 / M_WATER) ∧
      av = Real.sqrt (8 * R * 300 / (PI * M_WATER)) ∧
      rms = Real.sqrt (3 * R * 300 / M_WATER) ∧
      mp < av ∧ av < rms :=
  velocity_report_ordering M_WATER 300 (by norm_num [M_WATER]) (by norm_num)

/-- Concrete instance of the C8 statement at 400 K, maximum energy 25000 J
and 300 steps. -/
theorem boltzmann_energy_invariants_witness :
    ∃ x y : List ℝ,
      boltzmann_energy 400 25000 300 = .ok (some (x, y)) ∧
      (∀ v ∈ y, 0 ≤ v) ∧
      x.Pairwise (· < ·) :=
  boltzmann_energy_invariants 400 25000 300 (by norm_num) (by norm_num)
    (by norm_num)

/-- Concrete instance of the C6 statement on a two-point grid and one
frequency. -/
theorem calculate_sum_wave_length_and_empty_witness :
    (calculate_sum_wave [0, 1] [2]).length = ([0, 1] : List ℝ).length ∧
    calculate_sum_wave [0, 1] ([] : List ℝ) =
      List.replicate ([0, 1] : List ℝ).length 0 :=
  calculate_sum_wave_length_and_empty [0, 1] [2]
